import Mathlib

/-!
# RawTherapee `rtengine/procparams.h`: the `Threshold<T>` curve

A shallow embedding of the class template `rtengine::procparams::Threshold<T>` and the
properties of its members `operator==`, `toVector` and `multiply`.

Modelling conventions.

* The template parameter `T` is an arithmetic type (`int` and `double` in this header). It is
  a type of the class `ThresholdScalar`, which carries the order of `T` and the conversion
  `static_cast<double>(.)`.
* `double` is modelled by the rationals `ℚ`: the arithmetic of `multiply` is the exact
  arithmetic of an ordered field, without rounding, infinities or NaN.
* `multiplyRounded` is the same member with every arithmetic operation rounded to the nearest
  `double` (`roundDouble`); it is used where the rounding decides a property.
* A division whose divisor is zero has no value in that arithmetic, so `multiply` returns an
  `Option`: `none` stands for a division by zero, `some r` for the returned value `r`.
-/

namespace rtengine
namespace procparams

/-- The arithmetic template parameter `T` of `Threshold<T>`: a linearly ordered scalar type
together with the conversion `static_cast<double>`, which is exact, hence strictly monotone,
for the two instantiations `int` and `double`. -/
class ThresholdScalar (T : Type) extends LinearOrder T where
  /-- The conversion `static_cast<double>(v)`. -/
  toDouble : T → ℚ
  /-- The conversion preserves the strict order. -/
  toDouble_strictMono : StrictMono toDouble

/-- The instantiation `T = int`. -/
instance instThresholdScalarInt : ThresholdScalar ℤ :=
  { (inferInstance : LinearOrder ℤ) with
    toDouble := fun n => (n : ℚ)
    toDouble_strictMono := fun _ _ h => Int.cast_lt.mpr h }

/-- The instantiation `T = double`. -/
instance instThresholdScalarRat : ThresholdScalar ℚ :=
  { (inferInstance : LinearOrder ℚ) with
    toDouble := fun q => q
    toDouble_strictMono := fun _ _ h => h }

/-- The data members of `Threshold<T>`, in the order of the private constructor
`Threshold(_bottom_left, _top_left, _bottom_right, _top_right, _start_at_one, _is_double)`. -/
structure Threshold (T : Type) where
  bottom_left : T
  top_left : T
  bottom_right : T
  top_right : T
  init_eql : Bool
  is_double : Bool
  deriving DecidableEq, Repr

namespace Threshold

variable {T : Type}

/-- The constructor `Threshold(T _bottom, T _top, bool _start_at_one)`, which delegates to the
private constructor with `0, 0` for the right pair and `is_double = false`. -/
def ofBottomTop [Zero T] (_bottom _top : T) (_start_at_one : Bool) : Threshold T :=
  Threshold.mk _bottom _top 0 0 _start_at_one false

/-- The constructor
`Threshold(T _bottom_left, T _top_left, T _bottom_right, T _top_right, bool _start_at_one)`. -/
def ofFour (_bottom_left _top_left _bottom_right _top_right : T) (_start_at_one : Bool) :
    Threshold T :=
  Threshold.mk _bottom_left _top_left _bottom_right _top_right _start_at_one true

/-- The member `isDouble()`. -/
def isDouble (t : Threshold T) : Bool :=
  t.is_double

/-- The member `toVector()`. -/
def toVector (t : Threshold T) : List T :=
  if t.is_double then
    [t.bottom_left, t.top_left, t.bottom_right, t.top_right]
  else
    [t.bottom_left, t.top_left]

/-- The integral `operator ==` (enabled when `std::is_integral<T>`), at `T = int`. -/
def eqIntegral (t rhs : Threshold ℤ) : Bool :=
  if t.is_double then
    t.bottom_left == rhs.bottom_left
      && t.top_left == rhs.top_left
      && t.bottom_right == rhs.bottom_right
      && t.top_right == rhs.top_right
  else
    t.bottom_left == rhs.bottom_left
      && t.top_left == rhs.top_left

/-- The literal `1e-10` of the floating `operator ==`. -/
def epsilon : ℚ := 1 / 10000000000

/-- The floating `operator ==` (enabled when `std::is_floating_point<T>`), at `T = double`;
`std::fabs` is the absolute value. -/
def eqFloating (t rhs : Threshold ℚ) : Bool :=
  if t.is_double then
    decide (|t.bottom_left - rhs.bottom_left| < epsilon)
      && decide (|t.top_left - rhs.top_left| < epsilon)
      && decide (|t.bottom_right - rhs.bottom_right| < epsilon)
      && decide (|t.top_right - rhs.top_right| < epsilon)
  else
    decide (|t.bottom_left - rhs.bottom_left| < epsilon)
      && decide (|t.top_left - rhs.top_left| < epsilon)

/-- The quotient `num / den` of two `double`s; it has no value when the divisor is zero. -/
def divide (num den : ℚ) : Option ℚ :=
  if den = 0 then none else some (num / den)

/-- The member `RT multiply(RV x, RV2 y_max)`, with `val` the value `const double val = x`
and the result type `RT` and the type `RV2` of `y_max` both real valued. The branches follow
the source statement by statement; the two shapes of interpolation are
`y_max * (val - a) / (b - a)` and `y_max * (1 - (val - a) / (b - a))`. -/
def multiply [ThresholdScalar T] (t : Threshold T) (val y_max : ℚ) : Option ℚ :=
  let bottom_left := ThresholdScalar.toDouble t.bottom_left
  let top_left := ThresholdScalar.toDouble t.top_left
  let bottom_right := ThresholdScalar.toDouble t.bottom_right
  let top_right := ThresholdScalar.toDouble t.top_right
  if t.init_eql then
    -- the statements after the block `if (is_double) { ... }`
    let left : Option ℚ :=
      if val ≥ bottom_left then
        some 0
      else if val > top_left then
        (divide (val - bottom_left) (top_left - bottom_left)).map (fun q => y_max * (1 - q))
      else
        some y_max
    if t.is_double then
      if val = bottom_right ∧ bottom_right = top_right then
        some 0
      else if val ≥ top_right then
        some y_max
      else if val > bottom_right then
        divide (y_max * (val - bottom_right)) (top_right - bottom_right)
      else
        left
    else
      left
  else
    -- the statements after the block `if (is_double) { ... }`
    let left : Option ℚ :=
      if val ≥ top_left then
        some y_max
      else if val > bottom_left then
        divide (y_max * (val - bottom_left)) (top_left - bottom_left)
      else
        some 0
    if t.is_double then
      if val = bottom_right ∧ bottom_right = top_right then
        some y_max
      else if val ≥ bottom_right then
        some 0
      else if val > top_right then
        (divide (val - top_right) (bottom_right - top_right)).map (fun q => y_max * (1 - q))
      else
        left
    else
      left

/-- The member `getBottom()`. -/
def getBottom (t : Threshold T) : T :=
  t.bottom_left

/-- The member `getTop()`. -/
def getTop (t : Threshold T) : T :=
  t.top_left

/-- The member `getBottomLeft()`. -/
def getBottomLeft (t : Threshold T) : T :=
  t.bottom_left

/-- The member `getTopLeft()`. -/
def getTopLeft (t : Threshold T) : T :=
  t.top_left

/-- The member `getBottomRight()`. -/
def getBottomRight (t : Threshold T) : T :=
  t.bottom_right

/-- The member `getTopRight()`. -/
def getTopRight (t : Threshold T) : T :=
  t.top_right

/-- The overload `void setValues(T bottom, T top)`: the object after the call. -/
def setValues2 (t : Threshold T) (bottom top : T) : Threshold T :=
  { t with bottom_left := bottom, top_left := top }

/-- The overload `void setValues(T bottom_left, T top_left, T bottom_right, T top_right)`: the
object after the call. -/
def setValues4 (t : Threshold T) (bottom_left top_left bottom_right top_right : T) :
    Threshold T :=
  { t with
    bottom_left := bottom_left
    top_left := top_left
    bottom_right := bottom_right
    top_right := top_right }

end Threshold

/-- The data members of `struct FilmSimulationParams`; `Glib::ustring` is a string and `int`
an integer. -/
structure FilmSimulationParams where
  enabled : Bool
  clutFilename : String
  strength : ℤ
  deriving DecidableEq, Repr

namespace FilmSimulationParams

/-- The member `void setDefaults()`: the object after the call. -/
def setDefaults (p : FilmSimulationParams) : FilmSimulationParams :=
  { p with enabled := false, clutFilename := "", strength := 100 }

/-- The constructor `FilmSimulationParams()`, whose body is the call `setDefaults()`. The
members `enabled` and `strength` have no initialiser and hold indeterminate values `enabled0`
and `strength0` when the body starts; `clutFilename` is default-constructed, the empty
string. -/
def construct (enabled0 : Bool) (strength0 : ℤ) : FilmSimulationParams :=
  setDefaults (FilmSimulationParams.mk enabled0 "" strength0)

end FilmSimulationParams

/-- Modelled from the spec: the parameter set seen by `PartialProfile::applyTo`, which is
declared in the header and defined outside it. The spec speaks of the leaf fields of a
parameter set; a parameter set assigns to every leaf field `f` of a field index `Field` a value
of the type `Value f` of that field. -/
abbrev ProcParams (Field : Type) (Value : Field → Type) : Type :=
  (f : Field) → Value f

/-- Modelled from the spec: the edit mask `ParamsEdited`, only forward-declared in the header.
It "mirrors the ParameterSet's field structure with one boolean per leaf field", and answers
whether a field is present. -/
abbrev ParamsEdited (Field : Type) : Type :=
  Field → Bool

/-- The data members of `class PartialProfile`: the referenced parameter set `pparams` and the
optional edit mask `pedited` (a null pointer is `none`). -/
structure PartialProfile (Field : Type) (Value : Field → Type) where
  pparams : ProcParams Field Value
  pedited : Option (ParamsEdited Field)

namespace PartialProfile

/-- Modelled from the spec: `PartialProfile::applyTo(ProcParams* destParams)`, declared in the
header and defined outside it; the result is the destination after the call. "For every leaf
field, if no edit mask is attached, copy unconditionally; if an edit mask is attached, copy
only fields marked present, leaving all other fields of `dest` untouched." -/
def applyTo {Field : Type} {Value : Field → Type} (p : PartialProfile Field Value)
    (destParams : ProcParams Field Value) : ProcParams Field Value :=
  fun f =>
    match p.pedited with
    | none => p.pparams f
    | some pedited => if pedited f then p.pparams f else destParams f

end PartialProfile

/-- The data members of `class DirPyrEqualizerParams`; `double mult[6]` is a family of six
values and `Glib::ustring` a string. -/
structure DirPyrEqualizerParams where
  enabled : Bool
  gamutlab : Bool
  mult : Fin 6 → ℚ
  threshold : ℚ
  skinprotect : ℚ
  hueskin : Threshold ℤ
  cbdlMethod : String

namespace DirPyrEqualizerParams

/-- The constructor `DirPyrEqualizerParams() : hueskin (20, 80, 2000, 1200, false) {}`. The
members of built-in type have no initialiser and hold the indeterminate values given as
arguments; `cbdlMethod` is default-constructed, the empty string. -/
def construct (enabled0 gamutlab0 : Bool) (mult0 : Fin 6 → ℚ) (threshold0 skinprotect0 : ℚ) :
    DirPyrEqualizerParams :=
  DirPyrEqualizerParams.mk enabled0 gamutlab0 mult0 threshold0 skinprotect0
    (Threshold.ofFour 20 80 2000 1200 false) ""

end DirPyrEqualizerParams

namespace Threshold

variable {T : Type}

/-! ## Auxiliary facts on the interpolation quotient -/

/-- A quotient with a non-zero divisor has a value. -/
theorem divide_of_ne_zero (num den : ℚ) (h : den ≠ 0) : divide num den = some (num / den) := by
  simp [divide, h]

/-- When `v` lies strictly between `a` and `b`, in either order, the quotient
`(v - a) / (b - a)` lies strictly between `0` and `1`. -/
theorem quotient_mem_Ioo (a b v : ℚ) (h : (a < v ∧ v < b) ∨ (b < v ∧ v < a)) :
    0 < (v - a) / (b - a) ∧ (v - a) / (b - a) < 1 := by
  rcases h with ⟨h1, h2⟩ | ⟨h1, h2⟩
  · have hd : 0 < b - a := by linarith
    exact ⟨div_pos (by linarith) hd, (div_lt_one hd).mpr (by linarith)⟩
  · have hd : b - a < 0 := by linarith
    exact ⟨div_pos_of_neg_of_neg (by linarith) hd, (div_lt_one_of_neg hd).mpr (by linarith)⟩

/-- The interpolation `y_max * (v - a) / (b - a)` lies in `[0, y_max]`. -/
theorem ramp_mem_Icc (a b v y_max : ℚ) (h : (a < v ∧ v < b) ∨ (b < v ∧ v < a))
    (hy : 0 ≤ y_max) :
    0 ≤ y_max * (v - a) / (b - a) ∧ y_max * (v - a) / (b - a) ≤ y_max := by
  obtain ⟨h0, h1⟩ := quotient_mem_Ioo a b v h
  rw [mul_div_assoc]
  exact ⟨mul_nonneg hy h0.le, mul_le_of_le_one_right hy h1.le⟩

/-- The interpolation `y_max * (1 - (v - a) / (b - a))` lies in `[0, y_max]`. -/
theorem coramp_mem_Icc (a b v y_max : ℚ) (h : (a < v ∧ v < b) ∨ (b < v ∧ v < a))
    (hy : 0 ≤ y_max) :
    0 ≤ y_max * (1 - (v - a) / (b - a)) ∧ y_max * (1 - (v - a) / (b - a)) ≤ y_max := by
  obtain ⟨h0, h1⟩ := quotient_mem_Ioo a b v h
  exact ⟨mul_nonneg hy (by linarith), mul_le_of_le_one_right hy (by linarith)⟩

/-- The interpolation `y_max * (v - a) / (b - a)` has a value when `v` lies strictly between
`a` and `b`. -/
theorem divide_ramp (a b v y_max : ℚ) (h : (a < v ∧ v < b) ∨ (b < v ∧ v < a)) :
    divide (y_max * (v - a)) (b - a) = some (y_max * (v - a) / (b - a)) := by
  apply divide_of_ne_zero
  rcases h with ⟨h1, h2⟩ | ⟨h1, h2⟩
  · exact ne_of_gt (by linarith)
  · exact ne_of_lt (by linarith)

/-- The interpolation `y_max * (1 - (v - a) / (b - a))` has a value when `v` lies strictly
between `a` and `b`. -/
theorem divide_coramp (a b v y_max : ℚ) (h : (a < v ∧ v < b) ∨ (b < v ∧ v < a)) :
    (divide (v - a) (b - a)).map (fun q => y_max * (1 - q))
      = some (y_max * (1 - (v - a) / (b - a))) := by
  rw [divide_of_ne_zero]
  · rfl
  · rcases h with ⟨h1, h2⟩ | ⟨h1, h2⟩
    · exact ne_of_gt (by linarith)
    · exact ne_of_lt (by linarith)

/-! ## The range of `multiply` -/

/-- C1. For every curve, single or double sided and of either polarity, every `y_max ≥ 0` and
every `x`, `multiply(x, y_max)` returns a value, and that value lies in the closed interval
`[0, y_max]`. The ordering of the control points required by the claim is not needed: the
guards of each interpolation branch already place `x` strictly between its two points. -/
theorem multiply_mem_Icc [ThresholdScalar T] (t : Threshold T) (x y_max : ℚ)
    (hy : 0 ≤ y_max) :
    ∃ r, t.multiply x y_max = some r ∧ 0 ≤ r ∧ r ≤ y_max := by
  unfold multiply
  simp only []
  split_ifs with h1 h2 h3 h4 h5 h6 h7 h8 h9 h10 h11 h12 h13 h14 h15
  all_goals first
    | exact ⟨0, rfl, le_refl 0, hy⟩
    | exact ⟨y_max, rfl, hy, le_refl y_max⟩
    | skip
  all_goals simp only [ge_iff_le, gt_iff_lt, not_le, not_lt] at *
  · exact ⟨_, divide_ramp _ _ _ _ (Or.inl ⟨h5, h4⟩), ramp_mem_Icc _ _ _ _ (Or.inl ⟨h5, h4⟩) hy⟩
  · exact ⟨_, divide_coramp _ _ _ _ (Or.inr ⟨h7, h6⟩),
      coramp_mem_Icc _ _ _ _ (Or.inr ⟨h7, h6⟩) hy⟩
  · exact ⟨_, divide_coramp _ _ _ _ (Or.inr ⟨h9, h8⟩),
      coramp_mem_Icc _ _ _ _ (Or.inr ⟨h9, h8⟩) hy⟩
  · exact ⟨_, divide_coramp _ _ _ _ (Or.inl ⟨h13, h12⟩),
      coramp_mem_Icc _ _ _ _ (Or.inl ⟨h13, h12⟩) hy⟩
  · exact ⟨_, divide_ramp _ _ _ _ (Or.inl ⟨h15, h14⟩), ramp_mem_Icc _ _ _ _ (Or.inl ⟨h15, h14⟩) hy⟩
  · rename_i h16 h17
    exact ⟨_, divide_ramp _ _ _ _ (Or.inl ⟨h17, h16⟩), ramp_mem_Icc _ _ _ _ (Or.inl ⟨h17, h16⟩) hy⟩

/-- C1, at a concrete curve: the double-sided curve `(20, 80, 2000, 1200)` at `x = 1600` with
`y_max = 1`. -/
theorem multiply_mem_Icc_witness :
    (0 : ℚ) ≤ 1 ∧
      ∃ r, (ofFour (20 : ℤ) 80 2000 1200 false).multiply 1600 1 = some r ∧ 0 ≤ r ∧ r ≤ 1 :=
  ⟨zero_le_one, multiply_mem_Icc (ofFour (20 : ℤ) 80 2000 1200 false) 1600 1 zero_le_one⟩

/-! ## The degenerate right band -/

/-- C2. For every double-sided curve whose right pair is `bottom_right = top_right = v`,
whatever its left pair, `multiply(v, y_max)` returns `y_max` when `start_at_one` is false and
`0` when it is true. -/
theorem multiply_degenerate_right [ThresholdScalar T] (t : Threshold T) (v : T) (y_max : ℚ)
    (hd : t.is_double = true) (hb : t.bottom_right = v) (ht : t.top_right = v) :
    (t.init_eql = false → t.multiply (ThresholdScalar.toDouble v) y_max = some y_max) ∧
      (t.init_eql = true → t.multiply (ThresholdScalar.toDouble v) y_max = some 0) := by
  constructor
  · intro hi
    simp [multiply, hd, hb, ht, hi]
  · intro hi
    simp [multiply, hd, hb, ht, hi]

/-- C2, at the curves `(20, 80, 1200, 1200)` of both polarities. -/
theorem multiply_degenerate_right_witness :
    (ofFour (20 : ℤ) 80 1200 1200 false).multiply 1200 7 = some 7 ∧
      (ofFour (80 : ℤ) 20 1200 1200 true).multiply 1200 7 = some 0 :=
  ⟨by simpa [ThresholdScalar.toDouble] using
      (multiply_degenerate_right (ofFour (20 : ℤ) 80 1200 1200 false) 1200 7 rfl rfl rfl).1 rfl,
    by simpa [ThresholdScalar.toDouble] using
      (multiply_degenerate_right (ofFour (80 : ℤ) 20 1200 1200 true) 1200 7 rfl rfl rfl).2 rfl⟩

/-! ## The left band -/

/-- C3. For every single-sided curve with `start_at_one` false and `bottom_left < top_left`,
`multiply(x, y_max)` is `y_max` for `x ≥ top_left`, is
`y_max * (x - bottom_left) / (top_left - bottom_left)` for `bottom_left < x < top_left`, and is
`0` for `x ≤ bottom_left`. -/
theorem multiply_left_rising [ThresholdScalar T] (t : Threshold T) (x y_max : ℚ)
    (hd : t.is_double = false) (hi : t.init_eql = false) (hlt : t.bottom_left < t.top_left) :
    (ThresholdScalar.toDouble t.top_left ≤ x → t.multiply x y_max = some y_max) ∧
      (ThresholdScalar.toDouble t.bottom_left < x → x < ThresholdScalar.toDouble t.top_left →
        t.multiply x y_max
          = some (y_max * (x - ThresholdScalar.toDouble t.bottom_left)
              / (ThresholdScalar.toDouble t.top_left - ThresholdScalar.toDouble t.bottom_left))) ∧
      (x ≤ ThresholdScalar.toDouble t.bottom_left → t.multiply x y_max = some 0) := by
  have hlt2 := ThresholdScalar.toDouble_strictMono hlt
  refine ⟨fun h => ?_, fun h1 h2 => ?_, fun h => ?_⟩
  · simp [multiply, hd, hi, h]
  · simp [multiply, hd, hi, not_le.mpr h2, h1, divide_ramp _ _ _ _ (Or.inl ⟨h1, h2⟩)]
  · simp [multiply, hd, hi, not_le.mpr (lt_of_le_of_lt h hlt2), not_lt.mpr h]

/-- C3, at the single-sided curve `(0, 10)` at `x = 12`, `x = 2` and `x = -1`. -/
theorem multiply_left_rising_witness :
    (ofBottomTop (0 : ℤ) 10 false).multiply 12 5 = some 5 ∧
      (ofBottomTop (0 : ℤ) 10 false).multiply 2 5 = some 1 ∧
      (ofBottomTop (0 : ℤ) 10 false).multiply (-1) 5 = some 0 := by
  have h := fun x => multiply_left_rising (ofBottomTop (0 : ℤ) 10 false) x 5 rfl rfl
    (by decide)
  refine ⟨(h 12).1 ?_, ?_, (h (-1)).2.2 ?_⟩
  · norm_num [ofBottomTop, ThresholdScalar.toDouble]
  · have h2 := (h 2).2.1 (by norm_num [ofBottomTop, ThresholdScalar.toDouble])
      (by norm_num [ofBottomTop, ThresholdScalar.toDouble])
    rw [h2]
    norm_num [ofBottomTop, ThresholdScalar.toDouble]
  · norm_num [ofBottomTop, ThresholdScalar.toDouble]

/-- C4, the code at the single-sided curve `Threshold(10, 0, true)`, that is
`bottom_left = 10`, `top_left = 0`, `start_at_one = true`, at `x = 2` with `y_max = 1`:
`multiply` returns `1/5`, the value of `y_max * (1 - (x - bottom_left) / (top_left -
bottom_left))`, and not `4/5`, the value of the falling ramp
`y_max * (bottom_left - x) / (bottom_left - top_left)`. Between its end values `y_max` (at
`x ≤ top_left`) and `0` (at `x ≥ bottom_left`) the computed ramp rises from `0` to `y_max`. -/
theorem multiply_left_falling_at_failing_input :
    (ofBottomTop (10 : ℤ) 0 true).multiply 2 1 = some (1 / 5) ∧
      (ofBottomTop (10 : ℤ) 0 true).multiply 2 1 ≠ some (1 * (10 - 2) / (10 - 0)) ∧
      (ofBottomTop (10 : ℤ) 0 true).multiply 0 1 = some 1 ∧
      (ofBottomTop (10 : ℤ) 0 true).multiply (1 / 100) 1 = some (1 / 1000) ∧
      (ofBottomTop (10 : ℤ) 0 true).multiply 10 1 = some 0 := by
  refine ⟨?_, ?_, ?_, ?_, ?_⟩ <;>
    norm_num [multiply, ofBottomTop, divide, ThresholdScalar.toDouble]

/-! ## The right band -/

/-- C6. For every double-sided curve with `start_at_one` true and
`top_left ≤ bottom_left ≤ bottom_right < top_right`, `multiply(x, y_max)` is `y_max` for
`x ≥ top_right`, is `y_max * (x - bottom_right) / (top_right - bottom_right)` for
`bottom_right < x < top_right`, and is `0` for `bottom_left ≤ x ≤ bottom_right`. -/
theorem multiply_right_rising [ThresholdScalar T] (t : Threshold T) (x y_max : ℚ)
    (hd : t.is_double = true) (hi : t.init_eql = true)
    (_h1 : t.top_left ≤ t.bottom_left) (_h2 : t.bottom_left ≤ t.bottom_right)
    (h3 : t.bottom_right < t.top_right) :
    (ThresholdScalar.toDouble t.top_right ≤ x → t.multiply x y_max = some y_max) ∧
      (ThresholdScalar.toDouble t.bottom_right < x → x < ThresholdScalar.toDouble t.top_right →
        t.multiply x y_max
          = some (y_max * (x - ThresholdScalar.toDouble t.bottom_right)
              / (ThresholdScalar.toDouble t.top_right
                - ThresholdScalar.toDouble t.bottom_right))) ∧
      (ThresholdScalar.toDouble t.bottom_left ≤ x → x ≤ ThresholdScalar.toDouble t.bottom_right →
        t.multiply x y_max = some 0) := by
  have h3q := ThresholdScalar.toDouble_strictMono h3
  refine ⟨fun h => ?_, fun ha hb => ?_, fun ha hb => ?_⟩
  · simp [multiply, hd, hi, h, ne_of_lt h3q]
  · simp [multiply, hd, hi, ne_of_lt h3q, not_le.mpr hb, ha,
      divide_ramp _ _ _ _ (Or.inl ⟨ha, hb⟩)]
  · simp [multiply, hd, hi, ne_of_lt h3q, not_le.mpr (lt_of_le_of_lt hb h3q), not_lt.mpr hb, ha]

/-- C6, at the double-sided curve `(80, 20, 1200, 2000)` with `start_at_one` true at
`x = 2500`, `x = 1600` and `x = 100`. -/
theorem multiply_right_rising_witness :
    (ofFour (80 : ℤ) 20 1200 2000 true).multiply 2500 6 = some 6 ∧
      (ofFour (80 : ℤ) 20 1200 2000 true).multiply 1600 6 = some 3 ∧
      (ofFour (80 : ℤ) 20 1200 2000 true).multiply 100 6 = some 0 := by
  have h := fun x => multiply_right_rising (ofFour (80 : ℤ) 20 1200 2000 true) x 6 rfl rfl
    (by decide) (by decide) (by decide)
  refine ⟨(h 2500).1 ?_, ?_, (h 100).2.2 ?_ ?_⟩
  · norm_num [ofFour, ThresholdScalar.toDouble]
  · have h2 := (h 1600).2.1 (by norm_num [ofFour, ThresholdScalar.toDouble])
      (by norm_num [ofFour, ThresholdScalar.toDouble])
    rw [h2]
    norm_num [ofFour, ThresholdScalar.toDouble]
  · norm_num [ofFour, ThresholdScalar.toDouble]
  · norm_num [ofFour, ThresholdScalar.toDouble]

/-! ## Totality of `multiply` -/

/-- C7. For every combination of control points, zero-width bands included, both polarities,
both sidednesses, every `x` and every `y_max`, `multiply(x, y_max)` returns a value: no
division of an executed interpolation branch has a zero divisor. -/
theorem multiply_total [ThresholdScalar T] (t : Threshold T) (x y_max : ℚ) :
    ∃ r, t.multiply x y_max = some r := by
  unfold multiply
  simp only []
  split_ifs with h1 h2 h3 h4 h5 h6 h7 h8 h9 h10 h11 h12 h13 h14 h15
  all_goals first
    | exact ⟨_, rfl⟩
    | skip
  all_goals simp only [ge_iff_le, gt_iff_lt, not_le, not_lt] at *
  · exact ⟨_, divide_ramp _ _ _ _ (Or.inl ⟨h5, h4⟩)⟩
  · exact ⟨_, divide_coramp _ _ _ _ (Or.inr ⟨h7, h6⟩)⟩
  · exact ⟨_, divide_coramp _ _ _ _ (Or.inr ⟨h9, h8⟩)⟩
  · exact ⟨_, divide_coramp _ _ _ _ (Or.inl ⟨h13, h12⟩)⟩
  · exact ⟨_, divide_ramp _ _ _ _ (Or.inl ⟨h15, h14⟩)⟩
  · rename_i h16 h17
    exact ⟨_, divide_ramp _ _ _ _ (Or.inl ⟨h17, h16⟩)⟩

/-! ## Equality -/

/-- C8. For two `Threshold<int>` curves `a` and `b`, `a == b` holds if and only if every
active control point of `a` equals the corresponding point of `b`: `bottom_left` and
`top_left`, and also `bottom_right` and `top_right` when `a` is double-sided. -/
theorem eqIntegral_iff (a b : Threshold ℤ) :
    a.eqIntegral b = true ↔
      a.bottom_left = b.bottom_left ∧ a.top_left = b.top_left ∧
        (a.is_double = true → a.bottom_right = b.bottom_right ∧ a.top_right = b.top_right) := by
  unfold eqIntegral
  cases hd : a.is_double <;> simp [and_assoc]

/-- C8, at two double-sided curves that agree on all four points and differ in polarity. -/
theorem eqIntegral_iff_witness :
    (ofFour (20 : ℤ) 80 2000 1200 false).eqIntegral (ofFour 20 80 2000 1200 true) = true :=
  (eqIntegral_iff (ofFour (20 : ℤ) 80 2000 1200 false) (ofFour 20 80 2000 1200 true)).mpr
    ⟨rfl, rfl, fun _ => ⟨rfl, rfl⟩⟩

/-- C9. For two `Threshold<double>` curves `a` and `b`, with control points taken as exact
real numbers, `a == b` holds if and only if every active control point of `a` differs from
the corresponding point of `b` by an absolute difference strictly below `1e-10`: the left pair,
and also the right pair when `a` is double-sided. -/
theorem eqFloating_iff (a b : Threshold ℚ) :
    a.eqFloating b = true ↔
      |a.bottom_left - b.bottom_left| < 1 / 10 ^ 10 ∧ |a.top_left - b.top_left| < 1 / 10 ^ 10 ∧
        (a.is_double = true →
          |a.bottom_right - b.bottom_right| < 1 / 10 ^ 10 ∧
            |a.top_right - b.top_right| < 1 / 10 ^ 10) := by
  have he : epsilon = 1 / 10 ^ 10 := by norm_num [epsilon]
  unfold eqFloating
  rw [he]
  cases hd : a.is_double <;> simp [and_assoc]

/-- C9, at two single-sided curves whose left pairs differ by `1e-11` and whose right pairs
differ by `1`. -/
theorem eqFloating_iff_witness :
    (Threshold.mk (0 : ℚ) 1 5 6 false false).eqFloating
      (Threshold.mk (1 / 10 ^ 11) 1 6 7 false false) = true :=
  (eqFloating_iff (Threshold.mk (0 : ℚ) 1 5 6 false false)
    (Threshold.mk (1 / 10 ^ 11) 1 6 7 false false)).mpr
    ⟨by norm_num [abs_of_nonneg], by norm_num, fun h => absurd h (by decide)⟩

/-! ## Serialisation -/

/-- C10. `toVector()` is the list `[bottom_left, top_left]` of a single-sided curve and the
list `[bottom_left, top_left, bottom_right, top_right]` of a double-sided curve; its length is
`4` exactly when `isDouble()` and is `2` otherwise. -/
theorem toVector_eq (t : Threshold T) :
    (t.isDouble = false → t.toVector = [t.bottom_left, t.top_left]) ∧
      (t.isDouble = true →
        t.toVector = [t.bottom_left, t.top_left, t.bottom_right, t.top_right]) ∧
      (t.toVector.length = 4 ↔ t.isDouble = true) ∧
      (t.isDouble = false → t.toVector.length = 2) := by
  unfold toVector isDouble
  cases hd : t.is_double <;> simp

/-- C10, at the curves `Threshold(20, 80, false)` and `Threshold(20, 80, 2000, 1200, false)`. -/
theorem toVector_eq_witness :
    (ofBottomTop (20 : ℤ) 80 false).toVector = [20, 80] ∧
      (ofFour (20 : ℤ) 80 2000 1200 false).toVector = [20, 80, 2000, 1200] ∧
      (ofFour (20 : ℤ) 80 2000 1200 false).toVector.length = 4 ∧
      (ofBottomTop (20 : ℤ) 80 false).toVector.length = 2 :=
  ⟨(toVector_eq (ofBottomTop (20 : ℤ) 80 false)).1 rfl,
    (toVector_eq (ofFour (20 : ℤ) 80 2000 1200 false)).2.1 rfl,
    (toVector_eq (ofFour (20 : ℤ) 80 2000 1200 false)).2.2.1.mpr rfl,
    (toVector_eq (ofBottomTop (20 : ℤ) 80 false)).2.2.2 rfl⟩

/-! ## Point replacement and construction -/

/-- C11. After `setValues(b, p)` a single-sided curve has `toVector() == [b, p]`; after
`setValues(bl, tl, br, tr)` a double-sided curve has `toVector() == [bl, tl, br, tr]`; both
overloads leave `isDouble()` and the polarity flag as they were, and the two-argument overload
leaves `bottom_right` and `top_right` as they were. -/
theorem setValues_toVector (t : Threshold T) (b p bl tl br tr : T) :
    (t.isDouble = false → (t.setValues2 b p).toVector = [b, p]) ∧
      (t.isDouble = true → (t.setValues4 bl tl br tr).toVector = [bl, tl, br, tr]) ∧
      (t.setValues2 b p).isDouble = t.isDouble ∧
      (t.setValues4 bl tl br tr).isDouble = t.isDouble ∧
      (t.setValues2 b p).init_eql = t.init_eql ∧
      (t.setValues4 bl tl br tr).init_eql = t.init_eql ∧
      (t.setValues2 b p).bottom_right = t.bottom_right ∧
      (t.setValues2 b p).top_right = t.top_right := by
  refine ⟨fun h => ?_, fun h => ?_, rfl, rfl, rfl, rfl, rfl, rfl⟩
  · have h2 : t.is_double = false := h
    simp [toVector, setValues2, h2]
  · have h2 : t.is_double = true := h
    simp [toVector, setValues4, h2]

/-- C11, at the curves `Threshold(20, 80, false)` and `Threshold(20, 80, 2000, 1200, false)`. -/
theorem setValues_toVector_witness :
    ((ofBottomTop (20 : ℤ) 80 false).setValues2 30 70).toVector = [30, 70] ∧
      ((ofFour (20 : ℤ) 80 2000 1200 false).setValues4 1 2 3 4).toVector = [1, 2, 3, 4] :=
  ⟨(setValues_toVector (ofBottomTop (20 : ℤ) 80 false) 30 70 1 2 3 4).1 rfl,
    (setValues_toVector (ofFour (20 : ℤ) 80 2000 1200 false) 30 70 1 2 3 4).2.1 rfl⟩

/-- C12. The constructor `Threshold(b, p, s)` yields a curve with `isDouble() == false`,
`getBottom() == getBottomLeft() == b`, `getTop() == getTopLeft() == p` and the zero-width right
pair `getBottomRight() == getTopRight() == 0`; the constructor `Threshold(bl, tl, br, tr, s)`
yields `isDouble() == true` and the four getters return `bl`, `tl`, `br`, `tr`. -/
theorem constructors_getters [Zero T] (b p bl tl br tr : T) (s : Bool) :
    ((ofBottomTop b p s).isDouble = false ∧
        (ofBottomTop b p s).getBottom = b ∧ (ofBottomTop b p s).getBottomLeft = b ∧
        (ofBottomTop b p s).getTop = p ∧ (ofBottomTop b p s).getTopLeft = p ∧
        (ofBottomTop b p s).getBottomRight = 0 ∧ (ofBottomTop b p s).getTopRight = 0) ∧
      ((ofFour bl tl br tr s).isDouble = true ∧
        (ofFour bl tl br tr s).getBottomLeft = bl ∧ (ofFour bl tl br tr s).getTopLeft = tl ∧
        (ofFour bl tl br tr s).getBottomRight = br ∧ (ofFour bl tl br tr s).getTopRight = tr) :=
  ⟨⟨rfl, rfl, rfl, rfl, rfl, rfl, rfl⟩, ⟨rfl, rfl, rfl, rfl, rfl⟩⟩

/-! ## The interpolation on each linear region -/

/-- The interpolation `y_max * (x - a) / (b - a)` is non-decreasing in `x` when `a < b`. -/
theorem ramp_monotone (a b y_max : ℚ) (hab : a < b) (hy : 0 ≤ y_max) :
    Monotone (fun x => y_max * (x - a) / (b - a)) := by
  intro x1 x2 h
  have hd : 0 ≤ b - a := by linarith
  exact div_le_div_of_nonneg_right (mul_le_mul_of_nonneg_left (by linarith) hy) hd

/-- The interpolation `y_max * (1 - (x - a) / (b - a))` is non-increasing in `x` when
`a < b`. -/
theorem coramp_antitone (a b y_max : ℚ) (hab : a < b) (hy : 0 ≤ y_max) :
    Antitone (fun x => y_max * (1 - (x - a) / (b - a))) := by
  intro x1 x2 h
  have hd : 0 ≤ b - a := by linarith
  have hq : (x1 - a) / (b - a) ≤ (x2 - a) / (b - a) :=
    div_le_div_of_nonneg_right (by linarith) hd
  exact mul_le_mul_of_nonneg_left (by linarith) hy

/-- The interpolation `y_max * (1 - (x - a) / (b - a))` is non-decreasing in `x` when
`b < a`. -/
theorem coramp_monotone (a b y_max : ℚ) (hba : b < a) (hy : 0 ≤ y_max) :
    Monotone (fun x => y_max * (1 - (x - a) / (b - a))) := by
  intro x1 x2 h
  have hd : b - a ≤ 0 := by linarith
  have hq : (x2 - a) / (b - a) ≤ (x1 - a) / (b - a) :=
    div_le_div_of_nonpos_of_le hd (by linarith)
  exact mul_le_mul_of_nonneg_left (by linarith) hy

/-- With `start_at_one` false and, for a double-sided curve, `top_left ≤ top_right ≤
bottom_right`, `multiply` is the rising ramp strictly between `bottom_left` and `top_left`. -/
theorem multiply_left_region_false [ThresholdScalar T] (t : Threshold T) (x y_max : ℚ)
    (hi : t.init_eql = false)
    (hv : t.is_double = true → t.top_left ≤ t.top_right ∧ t.top_right ≤ t.bottom_right)
    (h1 : ThresholdScalar.toDouble t.bottom_left < x)
    (h2 : x < ThresholdScalar.toDouble t.top_left) :
    t.multiply x y_max
      = some (y_max * (x - ThresholdScalar.toDouble t.bottom_left)
          / (ThresholdScalar.toDouble t.top_left - ThresholdScalar.toDouble t.bottom_left)) := by
  cases hd : t.is_double
  · simp [multiply, hi, hd, not_le.mpr h2, h1, divide_ramp _ _ _ _ (Or.inl ⟨h1, h2⟩)]
  · obtain ⟨ha, hb⟩ := hv hd
    have ha2 := ThresholdScalar.toDouble_strictMono.monotone ha
    have hb2 := ThresholdScalar.toDouble_strictMono.monotone hb
    have hx1 : x < ThresholdScalar.toDouble t.top_right := lt_of_lt_of_le h2 ha2
    have hx2 : x < ThresholdScalar.toDouble t.bottom_right := lt_of_lt_of_le hx1 hb2
    simp [multiply, hi, hd, not_le.mpr h2, h1, divide_ramp _ _ _ _ (Or.inl ⟨h1, h2⟩),
      ne_of_lt hx2, not_le.mpr hx2, not_lt.mpr hx1.le]

/-- With `start_at_one` false, a double-sided curve is the falling ramp strictly between
`top_right` and `bottom_right`. -/
theorem multiply_right_region_false [ThresholdScalar T] (t : Threshold T) (x y_max : ℚ)
    (hd : t.is_double = true) (hi : t.init_eql = false)
    (h1 : ThresholdScalar.toDouble t.top_right < x)
    (h2 : x < ThresholdScalar.toDouble t.bottom_right) :
    t.multiply x y_max
      = some (y_max * (1 - (x - ThresholdScalar.toDouble t.top_right)
          / (ThresholdScalar.toDouble t.bottom_right
            - ThresholdScalar.toDouble t.top_right))) := by
  simp only [multiply, hd, hi, ne_of_lt h2, ge_iff_le, not_le.mpr h2, gt_iff_lt, h1,
    divide_coramp _ _ _ _ (Or.inl ⟨h1, h2⟩), false_and, if_false, if_true, Bool.false_eq_true]

/-- With `start_at_one` true and, for a double-sided curve, `bottom_left ≤ bottom_right ≤
top_right`, `multiply` strictly between `top_left` and `bottom_left` is the interpolation
`y_max * (1 - (x - bottom_left) / (top_left - bottom_left))` of the source. -/
theorem multiply_left_region_true [ThresholdScalar T] (t : Threshold T) (x y_max : ℚ)
    (hi : t.init_eql = true)
    (hv : t.is_double = true → t.bottom_left ≤ t.bottom_right ∧ t.bottom_right ≤ t.top_right)
    (h1 : ThresholdScalar.toDouble t.top_left < x)
    (h2 : x < ThresholdScalar.toDouble t.bottom_left) :
    t.multiply x y_max
      = some (y_max * (1 - (x - ThresholdScalar.toDouble t.bottom_left)
          / (ThresholdScalar.toDouble t.top_left
            - ThresholdScalar.toDouble t.bottom_left))) := by
  cases hd : t.is_double
  · simp only [multiply, hi, hd, ge_iff_le, not_le.mpr h2, gt_iff_lt, h1,
      divide_coramp _ _ _ _ (Or.inr ⟨h1, h2⟩), if_false, if_true, Bool.false_eq_true]
  · obtain ⟨ha, hb⟩ := hv hd
    have ha2 := ThresholdScalar.toDouble_strictMono.monotone ha
    have hb2 := ThresholdScalar.toDouble_strictMono.monotone hb
    have hx1 : x < ThresholdScalar.toDouble t.bottom_right := lt_of_lt_of_le h2 ha2
    have hx2 : x < ThresholdScalar.toDouble t.top_right := lt_of_lt_of_le hx1 hb2
    simp only [multiply, hi, hd, ge_iff_le, not_le.mpr h2, gt_iff_lt, h1,
      divide_coramp _ _ _ _ (Or.inr ⟨h1, h2⟩), ne_of_lt hx1, not_le.mpr hx2,
      not_lt.mpr hx1.le, false_and, if_false, if_true]

/-- With `start_at_one` true, a double-sided curve is the rising ramp strictly between
`bottom_right` and `top_right`. -/
theorem multiply_right_region_true [ThresholdScalar T] (t : Threshold T) (x y_max : ℚ)
    (hd : t.is_double = true) (hi : t.init_eql = true)
    (h1 : ThresholdScalar.toDouble t.bottom_right < x)
    (h2 : x < ThresholdScalar.toDouble t.top_right) :
    t.multiply x y_max
      = some (y_max * (x - ThresholdScalar.toDouble t.bottom_right)
          / (ThresholdScalar.toDouble t.top_right
            - ThresholdScalar.toDouble t.bottom_right)) := by
  simp [multiply, hd, hi, ne_of_gt h1, not_le.mpr h2, h1,
    divide_ramp _ _ _ _ (Or.inl ⟨h1, h2⟩)]

/-- A function that is monotone whenever the open interval is non-empty is monotone on it. -/
theorem monotoneOn_Ioo_of_lt (f : ℚ → ℚ) (lo hi : ℚ) (h : lo < hi → Monotone f) :
    MonotoneOn f (Set.Ioo lo hi) :=
  fun _ hx _ _ hxy => h (lt_trans hx.1 hx.2) hxy

/-- A function that is antitone whenever the open interval is non-empty is antitone on it. -/
theorem antitoneOn_Ioo_of_lt (f : ℚ → ℚ) (lo hi : ℚ) (h : lo < hi → Antitone f) :
    AntitoneOn f (Set.Ioo lo hi) :=
  fun _ hx _ _ hxy => h (lt_trans hx.1 hx.2) hxy

/-- C13. For every curve with ordered control points (`bottom_left ≤ top_left`, and
`top_left ≤ top_right ≤ bottom_right` when double-sided, for `start_at_one` false;
`top_left ≤ bottom_left`, and `bottom_left ≤ bottom_right ≤ top_right` when double-sided, for
`start_at_one` true) and every `y_max ≥ 0`, `multiply(., y_max)` returns on the open interval
between `bottom_left` and `top_left` the values of a function that is non-decreasing
throughout or non-increasing throughout that interval, and, when the curve is double-sided,
the same holds on the open interval between `top_right` and `bottom_right`. -/
theorem multiply_monotone_on_regions [ThresholdScalar T] (t : Threshold T) (y_max : ℚ)
    (hy : 0 ≤ y_max)
    (hF : t.init_eql = false → t.bottom_left ≤ t.top_left ∧
      (t.is_double = true → t.top_left ≤ t.top_right ∧ t.top_right ≤ t.bottom_right))
    (hT : t.init_eql = true → t.top_left ≤ t.bottom_left ∧
      (t.is_double = true → t.bottom_left ≤ t.bottom_right ∧ t.bottom_right ≤ t.top_right)) :
    (∃ f : ℚ → ℚ,
        (∀ x ∈ Set.Ioo
            (min (ThresholdScalar.toDouble t.bottom_left) (ThresholdScalar.toDouble t.top_left))
            (max (ThresholdScalar.toDouble t.bottom_left) (ThresholdScalar.toDouble t.top_left)),
          t.multiply x y_max = some (f x)) ∧
        (MonotoneOn f (Set.Ioo
            (min (ThresholdScalar.toDouble t.bottom_left) (ThresholdScalar.toDouble t.top_left))
            (max (ThresholdScalar.toDouble t.bottom_left) (ThresholdScalar.toDouble t.top_left)))
          ∨ AntitoneOn f (Set.Ioo
            (min (ThresholdScalar.toDouble t.bottom_left) (ThresholdScalar.toDouble t.top_left))
            (max (ThresholdScalar.toDouble t.bottom_left)
              (ThresholdScalar.toDouble t.top_left))))) ∧
      (t.is_double = true →
        ∃ f : ℚ → ℚ,
          (∀ x ∈ Set.Ioo
              (min (ThresholdScalar.toDouble t.top_right)
                (ThresholdScalar.toDouble t.bottom_right))
              (max (ThresholdScalar.toDouble t.top_right)
                (ThresholdScalar.toDouble t.bottom_right)),
            t.multiply x y_max = some (f x)) ∧
          (MonotoneOn f (Set.Ioo
              (min (ThresholdScalar.toDouble t.top_right)
                (ThresholdScalar.toDouble t.bottom_right))
              (max (ThresholdScalar.toDouble t.top_right)
                (ThresholdScalar.toDouble t.bottom_right)))
            ∨ AntitoneOn f (Set.Ioo
              (min (ThresholdScalar.toDouble t.top_right)
                (ThresholdScalar.toDouble t.bottom_right))
              (max (ThresholdScalar.toDouble t.top_right)
                (ThresholdScalar.toDouble t.bottom_right))))) := by
  have hmono := (ThresholdScalar.toDouble_strictMono (T := T)).monotone
  cases hi : t.init_eql
  · obtain ⟨hl, hr⟩ := hF hi
    have hl2 := hmono hl
    refine ⟨⟨fun x => y_max * (x - ThresholdScalar.toDouble t.bottom_left)
        / (ThresholdScalar.toDouble t.top_left - ThresholdScalar.toDouble t.bottom_left),
      fun x hx => ?_, Or.inl (monotoneOn_Ioo_of_lt _ _ _ fun h => ?_)⟩, fun hd => ?_⟩
    · rw [min_eq_left hl2, max_eq_right hl2] at hx
      exact multiply_left_region_false t x y_max hi hr hx.1 hx.2
    · rw [min_eq_left hl2, max_eq_right hl2] at h
      exact ramp_monotone _ _ y_max h hy
    · have hr2 := hmono (hr hd).2
      refine ⟨fun x => y_max * (1 - (x - ThresholdScalar.toDouble t.top_right)
          / (ThresholdScalar.toDouble t.bottom_right - ThresholdScalar.toDouble t.top_right)),
        fun x hx => ?_, Or.inr (antitoneOn_Ioo_of_lt _ _ _ fun h => ?_)⟩
      · rw [min_eq_left hr2, max_eq_right hr2] at hx
        exact multiply_right_region_false t x y_max hd hi hx.1 hx.2
      · rw [min_eq_left hr2, max_eq_right hr2] at h
        exact coramp_antitone _ _ y_max h hy
  · obtain ⟨hl, hr⟩ := hT hi
    have hl2 := hmono hl
    refine ⟨⟨fun x => y_max * (1 - (x - ThresholdScalar.toDouble t.bottom_left)
        / (ThresholdScalar.toDouble t.top_left - ThresholdScalar.toDouble t.bottom_left)),
      fun x hx => ?_, Or.inl (monotoneOn_Ioo_of_lt _ _ _ fun h => ?_)⟩, fun hd => ?_⟩
    · rw [min_eq_right hl2, max_eq_left hl2] at hx
      exact multiply_left_region_true t x y_max hi hr hx.1 hx.2
    · rw [min_eq_right hl2, max_eq_left hl2] at h
      exact coramp_monotone _ _ y_max h hy
    · have hr2 := hmono (hr hd).2
      refine ⟨fun x => y_max * (x - ThresholdScalar.toDouble t.bottom_right)
          / (ThresholdScalar.toDouble t.top_right - ThresholdScalar.toDouble t.bottom_right),
        fun x hx => ?_, Or.inl (monotoneOn_Ioo_of_lt _ _ _ fun h => ?_)⟩
      · rw [min_eq_right hr2, max_eq_left hr2] at hx
        exact multiply_right_region_true t x y_max hd hi hx.1 hx.2
      · rw [min_eq_right hr2, max_eq_left hr2] at h
        exact ramp_monotone _ _ y_max h hy

/-- C13, at the double-sided curve `(20, 80, 2000, 1200)` with `start_at_one` false and
`y_max = 1`. -/
theorem multiply_monotone_on_regions_witness :
    (∃ f : ℚ → ℚ,
        (∀ x ∈ (Set.Ioo (min (ThresholdScalar.toDouble (ofFour (20 : ℤ) 80 2000 1200 false).bottom_left) (ThresholdScalar.toDouble (ofFour (20 : ℤ) 80 2000 1200 false).top_left))
            (max (ThresholdScalar.toDouble (ofFour (20 : ℤ) 80 2000 1200 false).bottom_left) (ThresholdScalar.toDouble (ofFour (20 : ℤ) 80 2000 1200 false).top_left))),
          (ofFour (20 : ℤ) 80 2000 1200 false).multiply x 1 = some (f x)) ∧
        (MonotoneOn f (Set.Ioo (min (ThresholdScalar.toDouble (ofFour (20 : ℤ) 80 2000 1200 false).bottom_left) (ThresholdScalar.toDouble (ofFour (20 : ℤ) 80 2000 1200 false).top_left))
            (max (ThresholdScalar.toDouble (ofFour (20 : ℤ) 80 2000 1200 false).bottom_left) (ThresholdScalar.toDouble (ofFour (20 : ℤ) 80 2000 1200 false).top_left)))
          ∨ AntitoneOn f (Set.Ioo (min (ThresholdScalar.toDouble (ofFour (20 : ℤ) 80 2000 1200 false).bottom_left) (ThresholdScalar.toDouble (ofFour (20 : ℤ) 80 2000 1200 false).top_left))
            (max (ThresholdScalar.toDouble (ofFour (20 : ℤ) 80 2000 1200 false).bottom_left) (ThresholdScalar.toDouble (ofFour (20 : ℤ) 80 2000 1200 false).top_left))))) ∧
      ((ofFour (20 : ℤ) 80 2000 1200 false).is_double = true →
        ∃ f : ℚ → ℚ,
          (∀ x ∈ (Set.Ioo (min (ThresholdScalar.toDouble (ofFour (20 : ℤ) 80 2000 1200 false).top_right) (ThresholdScalar.toDouble (ofFour (20 : ℤ) 80 2000 1200 false).bottom_right))
            (max (ThresholdScalar.toDouble (ofFour (20 : ℤ) 80 2000 1200 false).top_right) (ThresholdScalar.toDouble (ofFour (20 : ℤ) 80 2000 1200 false).bottom_right))),
            (ofFour (20 : ℤ) 80 2000 1200 false).multiply x 1 = some (f x)) ∧
          (MonotoneOn f (Set.Ioo (min (ThresholdScalar.toDouble (ofFour (20 : ℤ) 80 2000 1200 false).top_right) (ThresholdScalar.toDouble (ofFour (20 : ℤ) 80 2000 1200 false).bottom_right))
            (max (ThresholdScalar.toDouble (ofFour (20 : ℤ) 80 2000 1200 false).top_right) (ThresholdScalar.toDouble (ofFour (20 : ℤ) 80 2000 1200 false).bottom_right)))
            ∨ AntitoneOn f (Set.Ioo (min (ThresholdScalar.toDouble (ofFour (20 : ℤ) 80 2000 1200 false).top_right) (ThresholdScalar.toDouble (ofFour (20 : ℤ) 80 2000 1200 false).bottom_right))
            (max (ThresholdScalar.toDouble (ofFour (20 : ℤ) 80 2000 1200 false).top_right) (ThresholdScalar.toDouble (ofFour (20 : ℤ) 80 2000 1200 false).bottom_right))))) :=
  multiply_monotone_on_regions (ofFour (20 : ℤ) 80 2000 1200 false) 1 zero_le_one
    (fun _ => ⟨by decide, fun _ => ⟨by decide, by decide⟩⟩)
    (fun h => absurd h (by decide))

/-! ## The right band past its bound -/

/-- With `start_at_one` false, a double-sided curve past `top_right` is computed from the
right pair alone. -/
theorem multiply_of_top_right_lt [ThresholdScalar T] (t : Threshold T) (x y_max : ℚ)
    (hd : t.is_double = true) (hi : t.init_eql = false)
    (h : ThresholdScalar.toDouble t.top_right < x) :
    t.multiply x y_max
      = if x ≥ ThresholdScalar.toDouble t.bottom_right then some 0
        else (divide (x - ThresholdScalar.toDouble t.top_right)
          (ThresholdScalar.toDouble t.bottom_right
            - ThresholdScalar.toDouble t.top_right)).map (fun q => y_max * (1 - q)) := by
  have hne : ¬(x = ThresholdScalar.toDouble t.bottom_right ∧
      ThresholdScalar.toDouble t.bottom_right = ThresholdScalar.toDouble t.top_right) :=
    fun hc => absurd (hc.1.trans hc.2) (ne_of_gt h)
  simp only [multiply, hd, hi, hne, gt_iff_lt, h, if_false, if_true, Bool.false_eq_true]

/-- With `start_at_one` true, a double-sided curve past `bottom_right` is computed from the
right pair alone. -/
theorem multiply_of_bottom_right_lt [ThresholdScalar T] (t : Threshold T) (x y_max : ℚ)
    (hd : t.is_double = true) (hi : t.init_eql = true)
    (h : ThresholdScalar.toDouble t.bottom_right < x) :
    t.multiply x y_max
      = if x ≥ ThresholdScalar.toDouble t.top_right then some y_max
        else divide (y_max * (x - ThresholdScalar.toDouble t.bottom_right))
          (ThresholdScalar.toDouble t.top_right
            - ThresholdScalar.toDouble t.bottom_right) := by
  have hne : ¬(x = ThresholdScalar.toDouble t.bottom_right ∧
      ThresholdScalar.toDouble t.bottom_right = ThresholdScalar.toDouble t.top_right) :=
    fun hc => absurd hc.1 (ne_of_gt h)
  simp only [multiply, hd, hi, hne, gt_iff_lt, h, if_false, if_true]

/-- C18. For two double-sided curves of the same polarity that agree on `bottom_right` and
`top_right`, whatever their left pairs, `multiply(x, y_max)` returns the same result for every
`x > top_right` when `start_at_one` is false and for every `x > bottom_right` when it is
true. -/
theorem multiply_right_precedence [ThresholdScalar T] (a b : Threshold T) (x y_max : ℚ)
    (hda : a.is_double = true) (hdb : b.is_double = true) (hi : a.init_eql = b.init_eql)
    (hbr : a.bottom_right = b.bottom_right) (htr : a.top_right = b.top_right)
    (hxF : a.init_eql = false → ThresholdScalar.toDouble a.top_right < x)
    (hxT : a.init_eql = true → ThresholdScalar.toDouble a.bottom_right < x) :
    a.multiply x y_max = b.multiply x y_max := by
  cases hia : a.init_eql
  · have hx := hxF hia
    rw [multiply_of_top_right_lt a x y_max hda hia hx,
      multiply_of_top_right_lt b x y_max hdb (hi ▸ hia) (htr ▸ hx), hbr, htr]
  · have hx := hxT hia
    rw [multiply_of_bottom_right_lt a x y_max hda hia hx,
      multiply_of_bottom_right_lt b x y_max hdb (hi ▸ hia) (hbr ▸ hx), hbr, htr]

/-- C18, at two curves with the right pair `(2000, 1200)` and different left pairs, at
`x = 1600`, and at two curves of the other polarity with the right pair `(1200, 2000)`. -/
theorem multiply_right_precedence_witness :
    (ofFour (20 : ℤ) 80 2000 1200 false).multiply 1600 1
        = (ofFour (1900 : ℤ) (-5) 2000 1200 false).multiply 1600 1 ∧
      (ofFour (80 : ℤ) 20 1200 2000 true).multiply 1600 1
        = (ofFour (-5 : ℤ) 1900 1200 2000 true).multiply 1600 1 :=
  ⟨multiply_right_precedence (ofFour (20 : ℤ) 80 2000 1200 false)
      (ofFour (1900 : ℤ) (-5) 2000 1200 false) 1600 1 rfl rfl rfl rfl rfl
      (fun _ => by norm_num [ofFour, ThresholdScalar.toDouble])
      (fun h => absurd h (by decide)),
    multiply_right_precedence (ofFour (80 : ℤ) 20 1200 2000 true)
      (ofFour (-5 : ℤ) 1900 1200 2000 true) 1600 1 rfl rfl rfl rfl rfl
      (fun h => absurd h (by decide))
      (fun _ => by norm_num [ofFour, ThresholdScalar.toDouble])⟩

/-! ## The order of the serialised points -/

/-- C19, refuted at the curve `Threshold(20, 80, 2000, 1200, false)`, the initial
`hueskin` of `DirPyrEqualizerParams`: its points are ordered,
`bottom_left ≤ top_left ≤ top_right ≤ bottom_right`, and `toVector()` is
`[20, 80, 2000, 1200]`, which is not non-decreasing. -/
theorem toVector_not_sorted :
    ((ofFour (20 : ℤ) 80 2000 1200 false).bottom_left
          ≤ (ofFour (20 : ℤ) 80 2000 1200 false).top_left ∧
        (ofFour (20 : ℤ) 80 2000 1200 false).top_left
          ≤ (ofFour (20 : ℤ) 80 2000 1200 false).top_right ∧
        (ofFour (20 : ℤ) 80 2000 1200 false).top_right
          ≤ (ofFour (20 : ℤ) 80 2000 1200 false).bottom_right) ∧
      (ofFour (20 : ℤ) 80 2000 1200 false).toVector = [20, 80, 2000, 1200] ∧
      ¬ List.Sorted (fun a b : ℤ => a ≤ b) (ofFour (20 : ℤ) 80 2000 1200 false).toVector := by
  refine ⟨⟨by decide, by decide, by decide⟩, rfl, ?_⟩
  simp [toVector, ofFour, List.Sorted]

/-- C19, amended. For every curve with ordered control points, `toVector()` lists the active
points in the fixed order `bottom_left, top_left, bottom_right, top_right`, and that list is
non-decreasing exactly when `start_at_one` is false and the curve is single-sided or has
`bottom_right == top_right`, or `start_at_one` is true and `bottom_left == top_left`. -/
theorem toVector_sorted_iff [LinearOrder T] (t : Threshold T)
    (hF : t.init_eql = false → t.bottom_left ≤ t.top_left ∧
      (t.is_double = true → t.top_left ≤ t.top_right ∧ t.top_right ≤ t.bottom_right))
    (hT : t.init_eql = true → t.top_left ≤ t.bottom_left ∧
      (t.is_double = true → t.bottom_left ≤ t.bottom_right ∧ t.bottom_right ≤ t.top_right)) :
    t.toVector = (if t.is_double then [t.bottom_left, t.top_left, t.bottom_right, t.top_right]
        else [t.bottom_left, t.top_left]) ∧
      (List.Sorted (fun a b : T => a ≤ b) t.toVector ↔
        (t.init_eql = false ∧ (t.is_double = true → t.bottom_right = t.top_right)) ∨
          (t.init_eql = true ∧ t.bottom_left = t.top_left)) := by
  refine ⟨rfl, ?_⟩
  cases hi : t.init_eql
  · obtain ⟨hl, hr⟩ := hF hi
    cases hd : t.is_double
    · simp [toVector, hd, List.Sorted, hl]
    · obtain ⟨h1, h2⟩ := hr hd
      simp only [toVector, hd, List.Sorted, if_true, List.pairwise_cons, List.mem_cons,
        List.mem_singleton, List.not_mem_nil, forall_eq_or_imp, forall_eq, List.Pairwise.nil,
        false_implies, implies_true, and_true, true_and, forall_const, Bool.false_eq_true,
        false_and, or_false]
      constructor
      · rintro ⟨-, -, h3⟩
        exact le_antisymm h3 h2
      · intro h3
        exact ⟨⟨hl, le_trans hl (le_trans h1 h2), le_trans hl h1⟩,
          ⟨le_trans h1 h2, h1⟩, h3.le⟩
  · obtain ⟨hl, hr⟩ := hT hi
    cases hd : t.is_double
    · simp only [toVector, hd, List.Sorted, if_false, List.pairwise_cons, List.mem_singleton,
        List.not_mem_nil, forall_eq, List.Pairwise.nil, false_implies, implies_true, and_true,
        Bool.false_eq_true, Bool.true_eq_false, false_and, false_or, true_and]
      exact ⟨fun h => le_antisymm h hl, fun h => h.le⟩
    · obtain ⟨h1, h2⟩ := hr hd
      simp only [toVector, hd, List.Sorted, if_true, List.pairwise_cons, List.mem_cons,
        List.mem_singleton, List.not_mem_nil, forall_eq_or_imp, forall_eq, List.Pairwise.nil,
        false_implies, implies_true, and_true, true_and, Bool.true_eq_false,
        false_and, false_or]
      constructor
      · rintro ⟨⟨h3, -, -⟩, -, -⟩
        exact le_antisymm h3 hl
      · intro h3
        exact ⟨⟨h3.le, h1, le_trans h1 h2⟩, ⟨le_trans hl h1, le_trans hl (le_trans h1 h2)⟩, h2⟩

/-- C19 amended, at the single-sided curve `Threshold(20, 80, false)`, whose list is
non-decreasing, and at the double-sided curve `Threshold(20, 80, 2000, 1200, false)`, whose
list is not. -/
theorem toVector_sorted_iff_witness :
    List.Sorted (fun a b : ℤ => a ≤ b) (ofBottomTop (20 : ℤ) 80 false).toVector ∧
      ¬ List.Sorted (fun a b : ℤ => a ≤ b) (ofFour (20 : ℤ) 80 2000 1200 false).toVector :=
  ⟨(toVector_sorted_iff (ofBottomTop (20 : ℤ) 80 false)
      (fun _ => ⟨by decide, fun h => absurd h (by decide)⟩)
      (fun h => absurd h (by decide))).2.mpr (Or.inl ⟨rfl, fun h => absurd h (by decide)⟩),
    fun hs => absurd
      ((toVector_sorted_iff (ofFour (20 : ℤ) 80 2000 1200 false)
        (fun _ => ⟨by decide, fun _ => ⟨by decide, by decide⟩⟩)
        (fun h => absurd h (by decide))).2.mp hs)
      (by simp [ofFour])⟩

/-! ## Equality and evaluation -/

/-- C20, refuted at `a = Threshold<int>(0, 10, false)` and `b = Threshold<int>(0, 10, true)`,
which differ in polarity only: `a == b` holds, and `a.multiply(20, 1)` is `1` while
`b.multiply(20, 1)` is `0`. It is refuted also at `a` and the double-sided
`c = Threshold<int>(0, 10, 15, 20, false)`: `a == c` holds and `c.multiply(20, 1)` is `0`. -/
theorem eqIntegral_multiply_ne :
    ((ofBottomTop (0 : ℤ) 10 false).eqIntegral (ofBottomTop (0 : ℤ) 10 true) = true ∧
        (ofBottomTop (0 : ℤ) 10 false).multiply 20 1 = some 1 ∧
        (ofBottomTop (0 : ℤ) 10 true).multiply 20 1 = some 0) ∧
      ((ofBottomTop (0 : ℤ) 10 false).eqIntegral (ofFour (0 : ℤ) 10 15 20 false) = true ∧
        (ofFour (0 : ℤ) 10 15 20 false).multiply 20 1 = some 0) ∧
      ¬ ∀ (a b : Threshold ℤ) (x y_max : ℚ), a.eqIntegral b = true →
          a.multiply x y_max = b.multiply x y_max := by
  have h1 : (ofBottomTop (0 : ℤ) 10 false).multiply 20 1 = some 1 := by
    norm_num [multiply, ofBottomTop, divide, ThresholdScalar.toDouble]
  have h2 : (ofBottomTop (0 : ℤ) 10 true).multiply 20 1 = some 0 := by
    norm_num [multiply, ofBottomTop, divide, ThresholdScalar.toDouble]
  have h3 : (ofFour (0 : ℤ) 10 15 20 false).multiply 20 1 = some 0 := by
    norm_num [multiply, ofFour, divide, ThresholdScalar.toDouble]
  refine ⟨⟨by decide, h1, h2⟩, ⟨by decide, h3⟩, fun h => ?_⟩
  have h4 := h (ofBottomTop (0 : ℤ) 10 false) (ofBottomTop (0 : ℤ) 10 true) 20 1 (by decide)
  rw [h1, h2] at h4
  exact absurd h4 (by norm_num)

/-- C20, amended. For two `Threshold<int>` curves `a` and `b` with `a == b` that have the same
polarity flag and the same sidedness, `a.multiply(x, y_max) == b.multiply(x, y_max)` for every
`x` and every `y_max`. -/
theorem multiply_eq_of_eqIntegral (a b : Threshold ℤ) (x y_max : ℚ)
    (h : a.eqIntegral b = true) (hi : a.init_eql = b.init_eql)
    (hd : a.is_double = b.is_double) :
    a.multiply x y_max = b.multiply x y_max := by
  obtain ⟨abl, atl, abr, atr, ai, ad⟩ := a
  obtain ⟨bbl, btl, bbr, btr, bi, bd⟩ := b
  simp only at hi hd
  subst hi hd
  cases ad
  · simp only [eqIntegral, Bool.false_eq_true, if_false, Bool.and_eq_true, beq_iff_eq] at h
    obtain ⟨h1, h2⟩ := h
    subst h1 h2
    simp [multiply]
  · simp only [eqIntegral, if_true, Bool.and_eq_true, beq_iff_eq] at h
    obtain ⟨⟨⟨h1, h2⟩, h3⟩, h4⟩ := h
    subst h1 h2 h3 h4
    rfl

/-- C20 amended, at two single-sided curves with the left pair `(0, 10)` and different right
pairs. -/
theorem multiply_eq_of_eqIntegral_witness :
    (Threshold.mk (0 : ℤ) 10 0 0 false false).multiply 5 1
      = (Threshold.mk (0 : ℤ) 10 15 20 false false).multiply 5 1 :=
  multiply_eq_of_eqIntegral (Threshold.mk (0 : ℤ) 10 0 0 false false)
    (Threshold.mk (0 : ℤ) 10 15 20 false false) 5 1 (by decide) rfl rfl

/-! ## Values and bounds of `multiply` -/

/-- On every input `multiply` returns a value, which lies in `[0, y_max]` when
`y_max ≥ 0`. -/
theorem multiply_eq_some [ThresholdScalar T] (t : Threshold T) (x y_max : ℚ) :
    ∃ r, t.multiply x y_max = some r ∧ (0 ≤ y_max → 0 ≤ r ∧ r ≤ y_max) := by
  unfold multiply
  simp only []
  split_ifs with h1 h2 h3 h4 h5 h6 h7 h8 h9 h10 h11 h12 h13 h14 h15
  all_goals first
    | exact ⟨0, rfl, fun hy => ⟨le_refl 0, hy⟩⟩
    | exact ⟨y_max, rfl, fun hy => ⟨hy, le_refl y_max⟩⟩
    | skip
  all_goals simp only [ge_iff_le, gt_iff_lt, not_le, not_lt] at *
  · exact ⟨_, divide_ramp _ _ _ _ (Or.inl ⟨h5, h4⟩), ramp_mem_Icc _ _ _ _ (Or.inl ⟨h5, h4⟩)⟩
  · exact ⟨_, divide_coramp _ _ _ _ (Or.inr ⟨h7, h6⟩),
      coramp_mem_Icc _ _ _ _ (Or.inr ⟨h7, h6⟩)⟩
  · exact ⟨_, divide_coramp _ _ _ _ (Or.inr ⟨h9, h8⟩),
      coramp_mem_Icc _ _ _ _ (Or.inr ⟨h9, h8⟩)⟩
  · exact ⟨_, divide_coramp _ _ _ _ (Or.inl ⟨h13, h12⟩),
      coramp_mem_Icc _ _ _ _ (Or.inl ⟨h13, h12⟩)⟩
  · exact ⟨_, divide_ramp _ _ _ _ (Or.inl ⟨h15, h14⟩), ramp_mem_Icc _ _ _ _ (Or.inl ⟨h15, h14⟩)⟩
  · rename_i h16 h17
    exact ⟨_, divide_ramp _ _ _ _ (Or.inl ⟨h17, h16⟩), ramp_mem_Icc _ _ _ _ (Or.inl ⟨h17, h16⟩)⟩

/-- With `start_at_one` false and, for a double-sided curve, `top_right ≤ bottom_right`,
`multiply` is `y_max` from `top_left` on, up to `top_right` when the curve is double-sided. -/
theorem multiply_plateau_false [ThresholdScalar T] (t : Threshold T) (x y_max : ℚ)
    (hi : t.init_eql = false) (hv : t.is_double = true → t.top_right ≤ t.bottom_right)
    (h1 : ThresholdScalar.toDouble t.top_left ≤ x)
    (h2 : t.is_double = true → x ≤ ThresholdScalar.toDouble t.top_right) :
    t.multiply x y_max = some y_max := by
  cases hd : t.is_double
  · simp [multiply, hi, hd, h1]
  · have hb := ThresholdScalar.toDouble_strictMono.monotone (hv hd)
    have hx := h2 hd
    by_cases hsp : x = ThresholdScalar.toDouble t.bottom_right ∧
        ThresholdScalar.toDouble t.bottom_right = ThresholdScalar.toDouble t.top_right
    · simp only [multiply, hi, hd, hsp, and_self, if_true, if_false, Bool.false_eq_true]
    · have hlt : x < ThresholdScalar.toDouble t.bottom_right := by
        rcases lt_or_eq_of_le (le_trans hx hb) with h | h
        · exact h
        · exact absurd ⟨h, le_antisymm (h ▸ hx) hb⟩ hsp
      simp only [multiply, hi, hd, hsp, ge_iff_le, not_le.mpr hlt, gt_iff_lt, not_lt.mpr hx, h1,
        if_true, if_false, Bool.false_eq_true]

/-- With `start_at_one` false and, for a double-sided curve, `top_left ≤ top_right ≤
bottom_right`, `multiply` is `0` up to `bottom_left`, below `top_left`. -/
theorem multiply_zero_left_false [ThresholdScalar T] (t : Threshold T) (x y_max : ℚ)
    (hi : t.init_eql = false)
    (hv : t.is_double = true → t.top_left ≤ t.top_right ∧ t.top_right ≤ t.bottom_right)
    (h1 : x ≤ ThresholdScalar.toDouble t.bottom_left)
    (h2 : x < ThresholdScalar.toDouble t.top_left) :
    t.multiply x y_max = some 0 := by
  cases hd : t.is_double
  · simp [multiply, hi, hd, not_le.mpr h2, not_lt.mpr h1]
  · obtain ⟨ha, hb⟩ := hv hd
    have ha2 := ThresholdScalar.toDouble_strictMono.monotone ha
    have hb2 := ThresholdScalar.toDouble_strictMono.monotone hb
    have hx1 : x < ThresholdScalar.toDouble t.top_right := lt_of_lt_of_le h2 ha2
    have hx2 : x < ThresholdScalar.toDouble t.bottom_right := lt_of_lt_of_le hx1 hb2
    simp [multiply, hi, hd, not_le.mpr h2, not_lt.mpr h1, ne_of_lt hx2, not_le.mpr hx2,
      not_lt.mpr hx1.le]

/-- C21, refuted at the single-sided `a = Threshold<int>(0, 10, false)` and the double-sided
`b = Threshold<int>(0, 10, 15, 20, false)`: `a == b` holds, since `a` compares its left pair
only, and `b == a` does not, since `b` compares the right pairs `(15, 20)` and `(0, 0)`. -/
theorem eqIntegral_not_symm :
    (ofBottomTop (0 : ℤ) 10 false).eqIntegral (ofFour (0 : ℤ) 10 15 20 false) = true ∧
      (ofFour (0 : ℤ) 10 15 20 false).eqIntegral (ofBottomTop (0 : ℤ) 10 false) = false ∧
      ¬ ∀ a b : Threshold ℤ, (a.eqIntegral b = true ↔ b.eqIntegral a = true) := by
  refine ⟨by decide, by decide, fun h => ?_⟩
  have h2 := (h (ofBottomTop (0 : ℤ) 10 false) (ofFour (0 : ℤ) 10 15 20 false)).mp (by decide)
  exact absurd h2 (by decide)

/-- C21, amended. For two `Threshold<int>` curves `a` and `b` of the same sidedness, of any
polarity, `a == b` holds if and only if `b == a` holds. -/
theorem eqIntegral_symm_of_isDouble_eq (a b : Threshold ℤ) (hd : a.isDouble = b.isDouble) :
    a.eqIntegral b = true ↔ b.eqIntegral a = true := by
  have hd2 : a.is_double = b.is_double := hd
  unfold eqIntegral
  rw [← hd2]
  cases a.is_double
  · simp only [Bool.false_eq_true, if_false, Bool.and_eq_true, beq_iff_eq]
    exact ⟨fun h => ⟨h.1.symm, h.2.symm⟩, fun h => ⟨h.1.symm, h.2.symm⟩⟩
  · simp only [if_true, Bool.and_eq_true, beq_iff_eq]
    exact ⟨fun h => ⟨⟨⟨h.1.1.1.symm, h.1.1.2.symm⟩, h.1.2.symm⟩, h.2.symm⟩,
      fun h => ⟨⟨⟨h.1.1.1.symm, h.1.1.2.symm⟩, h.1.2.symm⟩, h.2.symm⟩⟩

/-- C21 amended, at two double-sided curves of different polarity. -/
theorem eqIntegral_symm_of_isDouble_eq_witness :
    (ofFour (0 : ℤ) 10 15 20 false).eqIntegral (ofFour (0 : ℤ) 10 15 20 true) = true ↔
      (ofFour (0 : ℤ) 10 15 20 true).eqIntegral (ofFour (0 : ℤ) 10 15 20 false) = true :=
  eqIntegral_symm_of_isDouble_eq (ofFour (0 : ℤ) 10 15 20 false) (ofFour (0 : ℤ) 10 15 20 true)
    rfl

/-! ## Homogeneity in `y_max` -/

/-- The quotient commutes with a scalar factor of the dividend. -/
theorem divide_mul_left (c num den : ℚ) :
    divide (c * num) den = (divide num den).map (fun r => c * r) := by
  unfold divide
  split_ifs
  · rfl
  · simp [mul_div_assoc]

/-- C23. For every curve, every `x`, every `y_max` and every scalar `c`,
`multiply(x, c * y_max)` is `c * multiply(x, y_max)`; in particular `multiply(x, y_max)` is
`y_max * multiply(x, 1)` and `multiply(x, 0)` is `0`. -/
theorem multiply_homogeneous [ThresholdScalar T] (t : Threshold T) (x y_max c : ℚ) :
    t.multiply x (c * y_max) = (t.multiply x y_max).map (fun r => c * r) ∧
      t.multiply x y_max = (t.multiply x 1).map (fun r => y_max * r) ∧
      t.multiply x 0 = some 0 := by
  have key : ∀ c y : ℚ, t.multiply x (c * y) = (t.multiply x y).map (fun r => c * r) := by
    intro c y
    unfold multiply
    simp only []
    split_ifs <;>
      simp [mul_assoc, divide_mul_left, Option.map_map, Function.comp_def]
  refine ⟨key c y_max, ?_, ?_⟩
  · have h := key y_max 1
    rwa [mul_one] at h
  · obtain ⟨r, hr, -⟩ := multiply_eq_some t x y_max
    have h := key 0 y_max
    rw [zero_mul, hr] at h
    simpa using h

/-! ## The trapezoid shape -/

/-- C24. Two single-sided `Threshold<int>` curves that agree on `bottom_left`, `top_left` and
the polarity flag, whatever their `bottom_right` and `top_right`, return the same result of
`multiply` for every `x` and `y_max`, return the same list from `toVector()`, and compare
equal under `operator==`. -/
theorem multiply_toVector_eq_of_single (a b : Threshold ℤ)
    (ha : a.isDouble = false) (hb : b.isDouble = false)
    (hbl : a.bottom_left = b.bottom_left) (htl : a.top_left = b.top_left)
    (hi : a.init_eql = b.init_eql) :
    (∀ x y_max : ℚ, a.multiply x y_max = b.multiply x y_max) ∧
      a.toVector = b.toVector ∧ a.eqIntegral b = true := by
  have ha2 : a.is_double = false := ha
  have hb2 : b.is_double = false := hb
  refine ⟨fun x y_max => ?_, ?_, ?_⟩
  · simp [multiply, ha2, hb2, hbl, htl, hi]
  · simp [toVector, ha2, hb2, hbl, htl]
  · simp [eqIntegral, ha2, hbl, htl]

/-- C24, at the single-sided curve `Threshold<int>(0, 10, false)` and the same curve after
`setValues(0, 10, 15, 20)`, at `x = 5` with `y_max = 1`. -/
theorem multiply_toVector_eq_of_single_witness :
    (ofBottomTop (0 : ℤ) 10 false).multiply 5 1
        = ((ofBottomTop (0 : ℤ) 10 false).setValues4 0 10 15 20).multiply 5 1 ∧
      (ofBottomTop (0 : ℤ) 10 false).toVector
        = ((ofBottomTop (0 : ℤ) 10 false).setValues4 0 10 15 20).toVector ∧
      (ofBottomTop (0 : ℤ) 10 false).eqIntegral
        ((ofBottomTop (0 : ℤ) 10 false).setValues4 0 10 15 20) = true :=
  ⟨(multiply_toVector_eq_of_single (ofBottomTop (0 : ℤ) 10 false)
      ((ofBottomTop (0 : ℤ) 10 false).setValues4 0 10 15 20) rfl rfl rfl rfl rfl).1 5 1,
    (multiply_toVector_eq_of_single (ofBottomTop (0 : ℤ) 10 false)
      ((ofBottomTop (0 : ℤ) 10 false).setValues4 0 10 15 20) rfl rfl rfl rfl rfl).2⟩

/-! ## Strict bounds inside a linear region -/

/-- For `y_max > 0` the interpolation `y_max * (v - a) / (b - a)` lies strictly between `0`
and `y_max` when `v` lies strictly between `a` and `b`. -/
theorem ramp_mem_Ioo (a b v y_max : ℚ) (h : (a < v ∧ v < b) ∨ (b < v ∧ v < a))
    (hy : 0 < y_max) :
    0 < y_max * (v - a) / (b - a) ∧ y_max * (v - a) / (b - a) < y_max := by
  obtain ⟨h0, h1⟩ := quotient_mem_Ioo a b v h
  rw [mul_div_assoc]
  exact ⟨mul_pos hy h0, mul_lt_of_lt_one_right hy h1⟩

/-- For `y_max > 0` the interpolation `y_max * (1 - (v - a) / (b - a))` lies strictly between
`0` and `y_max` when `v` lies strictly between `a` and `b`. -/
theorem coramp_mem_Ioo (a b v y_max : ℚ) (h : (a < v ∧ v < b) ∨ (b < v ∧ v < a))
    (hy : 0 < y_max) :
    0 < y_max * (1 - (v - a) / (b - a)) ∧ y_max * (1 - (v - a) / (b - a)) < y_max := by
  obtain ⟨h0, h1⟩ := quotient_mem_Ioo a b v h
  exact ⟨mul_pos hy (by linarith), mul_lt_of_lt_one_right hy (by linarith)⟩

/-! ## The zero-width right band -/

/-- C17, refuted at the double-sided curve `Threshold<int>(20, 80, 1200, 1200, false)`, whose
points satisfy `bottom_left ≤ top_left ≤ v` and `bottom_right = top_right = v` for `v = 1200`:
at `x = 1300 ≥ v` with `y_max = 1`, `multiply` returns `0` and not `y_max`, by the statement
`if (val >= bottom_right) return 0;` that follows the special case. -/
theorem multiply_zero_width_right_not_pinned :
    ((ofFour (20 : ℤ) 80 1200 1200 false).is_double = true ∧
        (ofFour (20 : ℤ) 80 1200 1200 false).init_eql = false ∧
        (ofFour (20 : ℤ) 80 1200 1200 false).bottom_left
          ≤ (ofFour (20 : ℤ) 80 1200 1200 false).top_left ∧
        (ofFour (20 : ℤ) 80 1200 1200 false).top_left ≤ 1200 ∧
        (ofFour (20 : ℤ) 80 1200 1200 false).bottom_right = 1200 ∧
        (ofFour (20 : ℤ) 80 1200 1200 false).top_right = 1200 ∧
        ThresholdScalar.toDouble (1200 : ℤ) ≤ (1300 : ℚ)) ∧
      (ofFour (20 : ℤ) 80 1200 1200 false).multiply 1300 1 = some 0 ∧
      (ofFour (20 : ℤ) 80 1200 1200 false).multiply 1300 1 ≠ some 1 := by
  have h : (ofFour (20 : ℤ) 80 1200 1200 false).multiply 1300 1 = some 0 := by
    norm_num [multiply, ofFour, divide, ThresholdScalar.toDouble]
  refine ⟨⟨rfl, rfl, by decide, by decide, rfl, rfl, ?_⟩, h, ?_⟩
  · norm_num [ThresholdScalar.toDouble]
  · rw [h]
    norm_num

/-- C17, amended. For every double-sided curve with `start_at_one` false,
`bottom_left ≤ top_left ≤ v` and `bottom_right = top_right = v`, and every `y_max`:
`multiply(x, y_max)` is `y_max` for every `x` with `top_left ≤ x ≤ v`, the nominal right bound
`x = v` included, and is `0` for every `x > v`. -/
theorem multiply_zero_width_right [ThresholdScalar T] (t : Threshold T) (v : T)
    (x y_max : ℚ) (hd : t.is_double = true) (hi : t.init_eql = false)
    (_hl : t.bottom_left ≤ t.top_left) (_hv : t.top_left ≤ v)
    (hbr : t.bottom_right = v) (htr : t.top_right = v) :
    (ThresholdScalar.toDouble t.top_left ≤ x → x ≤ ThresholdScalar.toDouble v →
        t.multiply x y_max = some y_max) ∧
      (ThresholdScalar.toDouble v < x → t.multiply x y_max = some 0) := by
  constructor
  · intro h1 h2
    exact multiply_plateau_false t x y_max hi (fun _ => by rw [hbr, htr]) h1
      (fun _ => by rw [htr]; exact h2)
  · intro h1
    rw [multiply_of_top_right_lt t x y_max hd hi (by rw [htr]; exact h1),
      if_pos (by rw [hbr]; exact h1.le)]

/-- C17 amended, at the curve `Threshold<int>(20, 80, 1200, 1200, false)` with `y_max = 7`,
at `x = 1200`, `x = 100` and `x = 1201`. -/
theorem multiply_zero_width_right_witness :
    (ofFour (20 : ℤ) 80 1200 1200 false).multiply 1200 7 = some 7 ∧
      (ofFour (20 : ℤ) 80 1200 1200 false).multiply 100 7 = some 7 ∧
      (ofFour (20 : ℤ) 80 1200 1200 false).multiply 1201 7 = some 0 :=
  ⟨(multiply_zero_width_right (ofFour (20 : ℤ) 80 1200 1200 false) 1200 1200 7 rfl rfl
      (by decide) (by decide) rfl rfl).1
      (by norm_num [ofFour, ThresholdScalar.toDouble])
      (by norm_num [ThresholdScalar.toDouble]),
    (multiply_zero_width_right (ofFour (20 : ℤ) 80 1200 1200 false) 1200 100 7 rfl rfl
      (by decide) (by decide) rfl rfl).1
      (by norm_num [ofFour, ThresholdScalar.toDouble])
      (by norm_num [ThresholdScalar.toDouble]),
    (multiply_zero_width_right (ofFour (20 : ℤ) 80 1200 1200 false) 1200 1201 7 rfl rfl
      (by decide) (by decide) rfl rfl).2
      (by norm_num [ThresholdScalar.toDouble])⟩

/-! ## The trapezoid shape in `double` arithmetic -/

end Threshold

/-! ## `FilmSimulationParams` -/

/-- C14. After `setDefaults()` a `FilmSimulationParams` has `enabled == false`, an empty
`clutFilename` and `strength == 100`, whatever it held before; a second `setDefaults()` changes
nothing; and a freshly constructed `FilmSimulationParams` is the result of `setDefaults()`. -/
theorem FilmSimulationParams.setDefaults_baseline (p : FilmSimulationParams)
    (enabled0 : Bool) (strength0 : ℤ) :
    (p.setDefaults.enabled = false ∧ p.setDefaults.clutFilename = "" ∧
        p.setDefaults.strength = 100) ∧
      p.setDefaults.setDefaults = p.setDefaults ∧
      FilmSimulationParams.construct enabled0 strength0 = p.setDefaults :=
  ⟨⟨rfl, rfl, rfl⟩, rfl, rfl⟩

/-! ## `PartialProfile` -/

/-- C16. With an edit mask attached, `applyTo` leaves the destination unchanged when the mask
is false at every field, and makes every field of the destination equal to that field of the
source when the mask is true at every field. -/
theorem PartialProfile.applyTo_mask {Field : Type} {Value : Field → Type}
    (p : PartialProfile Field Value) (pedited : ParamsEdited Field)
    (destParams : ProcParams Field Value) (hp : p.pedited = some pedited) :
    ((∀ f, pedited f = false) → p.applyTo destParams = destParams) ∧
      ((∀ f, pedited f = true) → ∀ f, p.applyTo destParams f = p.pparams f) := by
  constructor
  · intro h
    funext f
    simp [PartialProfile.applyTo, hp, h f]
  · intro h f
    simp [PartialProfile.applyTo, hp, h f]

/-- C16, at a parameter set of two integer fields indexed by `Bool`. -/
theorem PartialProfile.applyTo_mask_witness :
    (PartialProfile.mk (fun _ => (7 : ℤ)) (some (fun _ => false))).applyTo
        (fun b : Bool => if b then (1 : ℤ) else 2) = (fun b : Bool => if b then (1 : ℤ) else 2) ∧
      ∀ f : Bool, (PartialProfile.mk (fun _ => (7 : ℤ)) (some (fun _ => true))).applyTo
        (fun b : Bool => if b then (1 : ℤ) else 2) f = 7 :=
  ⟨(PartialProfile.applyTo_mask (PartialProfile.mk (fun _ => (7 : ℤ)) (some (fun _ => false)))
      (fun _ => false) (fun b : Bool => if b then (1 : ℤ) else 2) rfl).1 (fun _ => rfl),
    (PartialProfile.applyTo_mask (PartialProfile.mk (fun _ => (7 : ℤ)) (some (fun _ => true)))
      (fun _ => true) (fun b : Bool => if b then (1 : ℤ) else 2) rfl).2 (fun _ => rfl)⟩

/-! ## `DirPyrEqualizerParams` -/

namespace DirPyrEqualizerParams

/-- The initial `hueskin` is the curve of the member initialiser, whatever the indeterminate
members are. -/
theorem construct_hueskin (enabled0 gamutlab0 : Bool) (mult0 : Fin 6 → ℚ)
    (threshold0 skinprotect0 : ℚ) :
    (construct enabled0 gamutlab0 mult0 threshold0 skinprotect0).hueskin = Threshold.ofFour 20 80 2000 1200 false :=
  rfl

/-- C25. A default-constructed `DirPyrEqualizerParams` has a double-sided `hueskin` with
`start_at_one` false and the points `(bottom_left, top_left, bottom_right, top_right) =
(20, 80, 2000, 1200)`, which satisfy `bottom_left ≤ top_left ≤ top_right ≤ bottom_right`; for
every `y_max ≥ 0`, `hueskin.multiply(x, y_max)` is `y_max` for `x` in `[80, 1200]`, is `0` for
`x ≤ 20` and for `x ≥ 2000`, and, when `y_max > 0`, is a value strictly between `0` and
`y_max` for `20 < x < 80` and for `1200 < x < 2000`. -/
theorem hueskin_default (enabled0 gamutlab0 : Bool) (mult0 : Fin 6 → ℚ)
    (threshold0 skinprotect0 : ℚ) (x y_max : ℚ) (_hy : 0 ≤ y_max) :
    ((construct enabled0 gamutlab0 mult0 threshold0 skinprotect0).hueskin.isDouble = true ∧
        (construct enabled0 gamutlab0 mult0 threshold0 skinprotect0).hueskin.init_eql = false ∧
        (construct enabled0 gamutlab0 mult0 threshold0 skinprotect0).hueskin.getBottomLeft = 20 ∧
        (construct enabled0 gamutlab0 mult0 threshold0 skinprotect0).hueskin.getTopLeft = 80 ∧
        (construct enabled0 gamutlab0 mult0 threshold0 skinprotect0).hueskin.getBottomRight = 2000 ∧
        (construct enabled0 gamutlab0 mult0 threshold0 skinprotect0).hueskin.getTopRight = 1200) ∧
      ((construct enabled0 gamutlab0 mult0 threshold0 skinprotect0).hueskin.bottom_left
          ≤ (construct enabled0 gamutlab0 mult0 threshold0 skinprotect0).hueskin.top_left ∧
        (construct enabled0 gamutlab0 mult0 threshold0 skinprotect0).hueskin.top_left
          ≤ (construct enabled0 gamutlab0 mult0 threshold0 skinprotect0).hueskin.top_right ∧
        (construct enabled0 gamutlab0 mult0 threshold0 skinprotect0).hueskin.top_right
          ≤ (construct enabled0 gamutlab0 mult0 threshold0 skinprotect0).hueskin.bottom_right) ∧
      (80 ≤ x → x ≤ 1200 →
        (construct enabled0 gamutlab0 mult0 threshold0 skinprotect0).hueskin.multiply x y_max
          = some y_max) ∧
      (x ≤ 20 →
        (construct enabled0 gamutlab0 mult0 threshold0 skinprotect0).hueskin.multiply x y_max
          = some 0) ∧
      (2000 ≤ x →
        (construct enabled0 gamutlab0 mult0 threshold0 skinprotect0).hueskin.multiply x y_max
          = some 0) ∧
      (0 < y_max → 20 < x → x < 80 →
        ∃ r, (construct enabled0 gamutlab0 mult0 threshold0 skinprotect0).hueskin.multiply x y_max
          = some r ∧ 0 < r ∧ r < y_max) ∧
      (0 < y_max → 1200 < x → x < 2000 →
        ∃ r, (construct enabled0 gamutlab0 mult0 threshold0 skinprotect0).hueskin.multiply x y_max
          = some r ∧ 0 < r ∧ r < y_max) := by
  rw [construct_hueskin]
  have hbl : ThresholdScalar.toDouble (Threshold.ofFour (20 : ℤ) 80 2000 1200 false).bottom_left
      = 20 := by norm_num [Threshold.ofFour, ThresholdScalar.toDouble]
  have htl : ThresholdScalar.toDouble (Threshold.ofFour (20 : ℤ) 80 2000 1200 false).top_left
      = 80 := by norm_num [Threshold.ofFour, ThresholdScalar.toDouble]
  have hbr : ThresholdScalar.toDouble (Threshold.ofFour (20 : ℤ) 80 2000 1200 false).bottom_right
      = 2000 := by norm_num [Threshold.ofFour, ThresholdScalar.toDouble]
  have htr : ThresholdScalar.toDouble (Threshold.ofFour (20 : ℤ) 80 2000 1200 false).top_right
      = 1200 := by norm_num [Threshold.ofFour, ThresholdScalar.toDouble]
  have hv : (Threshold.ofFour (20 : ℤ) 80 2000 1200 false).is_double = true →
      (Threshold.ofFour (20 : ℤ) 80 2000 1200 false).top_left
          ≤ (Threshold.ofFour (20 : ℤ) 80 2000 1200 false).top_right ∧
        (Threshold.ofFour (20 : ℤ) 80 2000 1200 false).top_right
          ≤ (Threshold.ofFour (20 : ℤ) 80 2000 1200 false).bottom_right :=
    fun _ => ⟨by decide, by decide⟩
  refine ⟨⟨rfl, rfl, rfl, rfl, rfl, rfl⟩, ⟨by decide, by decide, by decide⟩,
    fun h1 h2 => ?_, fun h1 => ?_, fun h1 => ?_, fun hpos h1 h2 => ?_, fun hpos h1 h2 => ?_⟩
  · exact Threshold.multiply_plateau_false _ x y_max rfl (fun hd => (hv hd).2)
      (by rw [htl]; exact h1) (fun _ => by rw [htr]; exact h2)
  · exact Threshold.multiply_zero_left_false _ x y_max rfl hv (by rw [hbl]; exact h1)
      (by rw [htl]; linarith)
  · rw [Threshold.multiply_of_top_right_lt _ x y_max rfl rfl (by rw [htr]; linarith),
      if_pos (by rw [hbr]; exact h1)]
  · have ha : ThresholdScalar.toDouble (Threshold.ofFour (20 : ℤ) 80 2000 1200 false).bottom_left
        < x := by rw [hbl]; exact h1
    have hb : x < ThresholdScalar.toDouble (Threshold.ofFour (20 : ℤ) 80 2000 1200 false).top_left :=
      by rw [htl]; exact h2
    exact ⟨_, Threshold.multiply_left_region_false _ x y_max rfl hv ha hb,
      Threshold.ramp_mem_Ioo _ _ _ _ (Or.inl ⟨ha, hb⟩) hpos⟩
  · have ha : ThresholdScalar.toDouble (Threshold.ofFour (20 : ℤ) 80 2000 1200 false).top_right
        < x := by rw [htr]; exact h1
    have hb : x
        < ThresholdScalar.toDouble (Threshold.ofFour (20 : ℤ) 80 2000 1200 false).bottom_right :=
      by rw [hbr]; exact h2
    exact ⟨_, Threshold.multiply_right_region_false _ x y_max rfl rfl ha hb,
      Threshold.coramp_mem_Ioo _ _ _ _ (Or.inl ⟨ha, hb⟩) hpos⟩

/-- C25, at a default-constructed record with `y_max = 1`, at `x = 100`, `x = 10`,
`x = 2500`, `x = 50` and `x = 1600`. -/
theorem hueskin_default_witness :
    (construct false false (fun _ => 0) 0 0).hueskin.multiply 100 1 = some 1 ∧
      (construct false false (fun _ => 0) 0 0).hueskin.multiply 10 1 = some 0 ∧
      (construct false false (fun _ => 0) 0 0).hueskin.multiply 2500 1 = some 0 ∧
      (∃ r, (construct false false (fun _ => 0) 0 0).hueskin.multiply 50 1 = some r ∧ 0 < r ∧ r < 1) ∧
      (∃ r, (construct false false (fun _ => 0) 0 0).hueskin.multiply 1600 1 = some r ∧ 0 < r ∧ r < 1) :=
  ⟨(hueskin_default false false (fun _ => 0) 0 0 100 1 zero_le_one).2.2.1 (by norm_num) (by norm_num),
    (hueskin_default false false (fun _ => 0) 0 0 10 1 zero_le_one).2.2.2.1 (by norm_num),
    (hueskin_default false false (fun _ => 0) 0 0 2500 1 zero_le_one).2.2.2.2.1 (by norm_num),
    (hueskin_default false false (fun _ => 0) 0 0 50 1 zero_le_one).2.2.2.2.2.1 zero_lt_one (by norm_num)
      (by norm_num),
    (hueskin_default false false (fun _ => 0) 0 0 1600 1 zero_le_one).2.2.2.2.2.2 zero_lt_one (by norm_num)
      (by norm_num)⟩

end DirPyrEqualizerParams

end procparams
end rtengine
